import Mathlib

/-!
Verification of the utility-function repository's specified component,
the memoizing wrapper `memoize`, together with the `isBuffer` predicate.

The test suite exercises `memoize` (caching, cache exposure, external
`cache.set`) and `isBuffer`.  The wrapper's behaviour is embedded as a
pure state-passing model over an explicit JavaScript-like value type;
the cache is a `Map`-like association list with `get`/`set`/`has`/
`delete`/`clear`.
-/

/-- A JavaScript-like value: `undefined`, numbers, strings, booleans,
and objects identified by their identity (a `Nat` id), so that two
structurally equal but distinct objects are different keys. -/
inductive JSVal where
  | undefined : JSVal
  | num : Int → JSVal
  | str : String → JSVal
  | bool : Bool → JSVal
  | obj : Nat → JSVal
deriving DecidableEq, Repr

/-- The cache store: a mapping from cache key to previously computed
result, modelled as an association list with `Map` semantics
(`set` replaces an existing binding or appends a new one). -/
def Cache : Type := List (JSVal × JSVal)

/-- The empty cache (`new Map()`). -/
def Cache.empty : Cache := []

/-- `cache.get(key)`: the stored value for `key`, if any. -/
def Cache.get? : Cache → JSVal → Option JSVal
  | [], _ => none
  | (k', v') :: rest, k => if k' = k then some v' else Cache.get? rest k

/-- `cache.has(key)`. -/
def Cache.has (c : Cache) (k : JSVal) : Bool :=
  (c.get? k).isSome

/-- `cache.set(key, value)`: replaces the binding for `key` if present,
otherwise appends a new binding (JS `Map.set`). -/
def Cache.set : Cache → JSVal → JSVal → Cache
  | [], k, v => [(k, v)]
  | (k', v') :: rest, k, v =>
      if k' = k then (k, v) :: rest else (k', v') :: Cache.set rest k v

/-- `cache.delete(key)`: removes the binding for `key` if present. -/
def Cache.delete : Cache → JSVal → Cache
  | [], _ => []
  | (k', v') :: rest, k =>
      if k' = k then Cache.delete rest k else (k', v') :: Cache.delete rest k

/-- `cache.clear()`. -/
def Cache.clear (_ : Cache) : Cache := []

/-- A JavaScript function value: either a callable (modelled as a total
map from the argument list to a result that is either a returned value
`Except.ok` or a thrown value `Except.error`), or a non-callable value. -/
inductive FnArg where
  | callable : (List JSVal → Except JSVal JSVal) → FnArg
  | notCallable : JSVal → FnArg

/-- A resolver argument supplied to `memoize`: either a callable
computing the cache key from the call arguments, or a non-callable
value. -/
inductive ResolverArg where
  | callable : (List JSVal → JSVal) → ResolverArg
  | notCallable : JSVal → ResolverArg

/-- The error `memoize` raises at wrap time (`TypeError`-equivalent). -/
inductive MemoizeError where
  | invalidArgument : MemoizeError
deriving DecidableEq, Repr

/-- Modelled from the spec: the `MemoizedFunction` returned by
`memoize` (the file `src/memoize.js` itself is not part of the sources
at hand; only its tests and the spec describe it).  It wraps the
original function `fn`, an optional `resolver`, and owns a `cache`
store exposed publicly. -/
structure MemoizedFunction where
  fn : List JSVal → Except JSVal JSVal
  resolver : Option (List JSVal → JSVal)
  cache : Cache

/-- Modelled from the spec: the cache key for a call with arguments
`args` is `resolver(a0,...,an)` when a resolver was supplied, and the
first argument `a0` alone otherwise; with no arguments the default key
resolves to `undefined`. -/
def resolveKey (resolver : Option (List JSVal → JSVal)) (args : List JSVal) : JSVal :=
  match resolver with
  | some r => r args
  | none => args.headD JSVal.undefined

/-- Outcome of one invocation of a memoized wrapper: the returned or
thrown value, the wrapper's state after the call, and whether the
underlying `fn` was invoked during the call. -/
structure CallOutcome where
  result : Except JSVal JSVal
  state : MemoizedFunction
  invoked : Bool

/-- Modelled from the spec: one invocation of the memoized wrapper.
It computes `key`, returns the stored value without invoking `fn` when
`key` is in the cache, and otherwise invokes `fn(a0,...,an)`; a normal
result is stored under `key`, while a thrown error is re-raised
unchanged and nothing is cached. -/
def MemoizedFunction.call (m : MemoizedFunction) (args : List JSVal) : CallOutcome :=
  let key := resolveKey m.resolver args
  match m.cache.get? key with
  | some v => ⟨Except.ok v, m, false⟩
  | none =>
    match m.fn args with
    | Except.ok v => ⟨Except.ok v, { m with cache := m.cache.set key v }, true⟩
    | Except.error e => ⟨Except.error e, m, true⟩

/-- External mutation of the exposed cache: `m.cache.set(k, v)`. -/
def MemoizedFunction.cacheSet (m : MemoizedFunction) (k v : JSVal) : MemoizedFunction :=
  { m with cache := m.cache.set k v }

/-- External mutation of the exposed cache: `m.cache.delete(k)`. -/
def MemoizedFunction.cacheDelete (m : MemoizedFunction) (k : JSVal) : MemoizedFunction :=
  { m with cache := m.cache.delete k }

/-- External mutation of the exposed cache: `m.cache.clear()`. -/
def MemoizedFunction.cacheClear (m : MemoizedFunction) : MemoizedFunction :=
  { m with cache := m.cache.clear }

/-- Modelled from the spec: `memoize(fn, resolver?)`.  It fails
synchronously with a `TypeError`-equivalent if `fn` is not callable or
a supplied `resolver` is not callable; otherwise it returns the wrapper
with a fresh empty cache. -/
def memoize (fn : FnArg) (resolver : Option ResolverArg) :
    Except MemoizeError MemoizedFunction :=
  match fn with
  | FnArg.notCallable _ => Except.error MemoizeError.invalidArgument
  | FnArg.callable f =>
    match resolver with
    | some (ResolverArg.notCallable _) => Except.error MemoizeError.invalidArgument
    | some (ResolverArg.callable r) => Except.ok ⟨f, some r, Cache.empty⟩
    | none => Except.ok ⟨f, none, Cache.empty⟩

/-- Run a sequence of calls against a memoized wrapper, threading the
state. -/
def runCalls (m : MemoizedFunction) (calls : List (List JSVal)) : MemoizedFunction :=
  calls.foldl (fun s args => (s.call args).state) m

/- ### Cache lemmas -/

theorem Cache.get_empty (k : JSVal) : Cache.empty.get? k = none := rfl

theorem Cache.get_set_self (c : Cache) (k v : JSVal) :
    (c.set k v).get? k = some v := by
  induction c with
  | nil => simp [Cache.set, Cache.get?]
  | cons p rest ih =>
    by_cases h : p.1 = k
    · simp [Cache.set, Cache.get?, h]
    · simp [Cache.set, Cache.get?, h, ih]

theorem Cache.get_set_other (c : Cache) (k k' v : JSVal) (h : k ≠ k') :
    (c.set k v).get? k' = c.get? k' := by
  induction c with
  | nil => simp [Cache.set, Cache.get?, h]
  | cons p rest ih =>
    by_cases hp : p.1 = k
    · simp [Cache.set, Cache.get?, hp, h]
    · simp [Cache.set, Cache.get?, hp, ih]

theorem Cache.get_delete_self (c : Cache) (k : JSVal) :
    (c.delete k).get? k = none := by
  induction c with
  | nil => simp [Cache.delete, Cache.get?]
  | cons p rest ih =>
    by_cases hp : p.1 = k
    · simp [Cache.delete, hp, ih]
    · simp [Cache.delete, Cache.get?, hp, ih]

theorem Cache.get_delete_other (c : Cache) (k k' : JSVal) (h : k ≠ k') :
    (c.delete k).get? k' = c.get? k' := by
  induction c with
  | nil => simp [Cache.delete]
  | cons p rest ih =>
    by_cases hp : p.1 = k
    · subst hp
      simp [Cache.delete, Cache.get?, h, ih]
    · simp [Cache.delete, Cache.get?, hp, ih]

/- ### Call lemmas -/

theorem call_hit (m : MemoizedFunction) (args : List JSVal) (v : JSVal)
    (h : m.cache.get? (resolveKey m.resolver args) = some v) :
    m.call args = ⟨Except.ok v, m, false⟩ := by
  simp [MemoizedFunction.call, h]

theorem call_miss_ok (m : MemoizedFunction) (args : List JSVal) (v : JSVal)
    (hmiss : m.cache.get? (resolveKey m.resolver args) = none)
    (hf : m.fn args = Except.ok v) :
    m.call args =
      ⟨Except.ok v, { m with cache := m.cache.set (resolveKey m.resolver args) v }, true⟩ := by
  simp [MemoizedFunction.call, hmiss, hf]

theorem call_miss_err (m : MemoizedFunction) (args : List JSVal) (e : JSVal)
    (hmiss : m.cache.get? (resolveKey m.resolver args) = none)
    (hf : m.fn args = Except.error e) :
    m.call args = ⟨Except.error e, m, true⟩ := by
  simp [MemoizedFunction.call, hmiss, hf]

theorem call_state_fn (m : MemoizedFunction) (args : List JSVal) :
    (m.call args).state.fn = m.fn := by
  unfold MemoizedFunction.call
  cases h : m.cache.get? (resolveKey m.resolver args) with
  | some v => simp [h]
  | none =>
    cases hf : m.fn args with
    | ok v => simp [h, hf]
    | error e => simp [h, hf]

theorem call_state_resolver (m : MemoizedFunction) (args : List JSVal) :
    (m.call args).state.resolver = m.resolver := by
  unfold MemoizedFunction.call
  cases h : m.cache.get? (resolveKey m.resolver args) with
  | some v => simp [h]
  | none =>
    cases hf : m.fn args with
    | ok v => simp [h, hf]
    | error e => simp [h, hf]

/-- The doubling function from the test suite (`n => n * 2`), lifted to
the embedding: doubles a numeric first argument. -/
def fDouble : List JSVal → Except JSVal JSVal := fun args =>
  match args.headD JSVal.undefined with
  | JSVal.num n => Except.ok (JSVal.num (2 * n))
  | _ => Except.error JSVal.undefined

/-- A function that throws on every call, for exercising error
passthrough. -/
def fThrow : List JSVal → Except JSVal JSVal := fun _ =>
  Except.error (JSVal.str "boom")

/-- Claim C1: for every function `fn` and every argument `x`, calling
the wrapper returned by `memoize(fn)` twice with the same `x` (with no
cache mutation or clear between the calls) returns the same result both
times and invokes `fn` exactly once; the second call is served from the
cache. -/
theorem memoize_call_twice_invokes_once
    (f : List JSVal → Except JSVal JSVal) (x v : JSVal) (m : MemoizedFunction)
    (hm : memoize (FnArg.callable f) none = Except.ok m)
    (hf : f [x] = Except.ok v) :
    (m.call [x]).result = Except.ok v ∧
    (m.call [x]).invoked = true ∧
    ((m.call [x]).state.call [x]).result = Except.ok v ∧
    ((m.call [x]).state.call [x]).invoked = false ∧
    ((m.call [x]).state.call [x]).state = (m.call [x]).state := by
  have hm' : (⟨f, none, Cache.empty⟩ : MemoizedFunction) = m := Except.ok.inj hm
  subst hm'
  simp [MemoizedFunction.call, resolveKey, Cache.empty, Cache.get?, Cache.set, hf]

/-- Witness for C1 at the test-suite instance: doubling `2` twice. -/
theorem memoize_call_twice_invokes_once_witness :
    (((⟨fDouble, none, Cache.empty⟩ : MemoizedFunction)).call [JSVal.num 2]).result =
        Except.ok (JSVal.num 4) ∧
    (((⟨fDouble, none, Cache.empty⟩ : MemoizedFunction)).call [JSVal.num 2]).invoked = true ∧
    ((((⟨fDouble, none, Cache.empty⟩ : MemoizedFunction)).call [JSVal.num 2]).state.call
        [JSVal.num 2]).result = Except.ok (JSVal.num 4) ∧
    ((((⟨fDouble, none, Cache.empty⟩ : MemoizedFunction)).call [JSVal.num 2]).state.call
        [JSVal.num 2]).invoked = false ∧
    ((((⟨fDouble, none, Cache.empty⟩ : MemoizedFunction)).call [JSVal.num 2]).state.call
        [JSVal.num 2]).state =
      (((⟨fDouble, none, Cache.empty⟩ : MemoizedFunction)).call [JSVal.num 2]).state :=
  memoize_call_twice_invokes_once fDouble (JSVal.num 2) (JSVal.num 4)
    ⟨fDouble, none, Cache.empty⟩ rfl rfl

/-- Claim C2: after an external `m.cache.set(k, v)` — whether or not
`k` was previously cached — the next call to `m` with arguments whose
resolved key is `k` returns `v` without invoking `fn`. -/
theorem memoize_cacheSet_bypasses_fn
    (m : MemoizedFunction) (k v : JSVal) (args : List JSVal)
    (hk : resolveKey m.resolver args = k) :
    ((m.cacheSet k v).call args).result = Except.ok v ∧
    ((m.cacheSet k v).call args).invoked = false := by
  have hget : (m.cache.set k v).get? (resolveKey m.resolver args) = some v := by
    rw [hk]; exact Cache.get_set_self m.cache k v
  constructor <;> simp [MemoizedFunction.cacheSet, MemoizedFunction.call, hget]

/-- Witness for C2 at the test-suite instance: `cache.set(3, 9)` then
calling with `3` returns `9` without invoking `fn`. -/
theorem memoize_cacheSet_bypasses_fn_witness :
    (((⟨fDouble, none, Cache.empty⟩ : MemoizedFunction).cacheSet (JSVal.num 3)
        (JSVal.num 9)).call [JSVal.num 3]).result = Except.ok (JSVal.num 9) ∧
    (((⟨fDouble, none, Cache.empty⟩ : MemoizedFunction).cacheSet (JSVal.num 3)
        (JSVal.num 9)).call [JSVal.num 3]).invoked = false :=
  memoize_cacheSet_bypasses_fn ⟨fDouble, none, Cache.empty⟩ (JSVal.num 3) (JSVal.num 9)
    [JSVal.num 3] rfl

/-- Claim C3: `memoize(fn, resolver?)` fails with a
`TypeError`-equivalent at wrap time whenever `fn` is not callable, or a
supplied `resolver` is not callable; on valid arguments it immediately
returns the wrapper with a fresh empty cache (so the failure is never
deferred to the first call of the wrapper — no wrapper exists in the
error cases). -/
theorem memoize_validates_at_wrap_time :
    (∀ (v : JSVal) (r : Option ResolverArg),
        memoize (FnArg.notCallable v) r = Except.error MemoizeError.invalidArgument) ∧
    (∀ (f : List JSVal → Except JSVal JSVal) (v : JSVal),
        memoize (FnArg.callable f) (some (ResolverArg.notCallable v)) =
          Except.error MemoizeError.invalidArgument) ∧
    (∀ (f : List JSVal → Except JSVal JSVal),
        memoize (FnArg.callable f) none = Except.ok ⟨f, none, Cache.empty⟩) ∧
    (∀ (f : List JSVal → Except JSVal JSVal) (r : List JSVal → JSVal),
        memoize (FnArg.callable f) (some (ResolverArg.callable r)) =
          Except.ok ⟨f, some r, Cache.empty⟩) :=
  ⟨fun _ _ => rfl, fun _ _ => rfl, fun _ => rfl, fun _ _ => rfl⟩

/-- Claim C4: if `fn` throws when called with arguments resolving to an
uncached key `k`, the error propagates unchanged to the caller, nothing
is stored under `k`, the wrapper state is unchanged, and a subsequent
call with the same arguments invokes `fn` again. -/
theorem memoize_error_passthrough_not_cached
    (m : MemoizedFunction) (args : List JSVal) (k e : JSVal)
    (hk : resolveKey m.resolver args = k)
    (hmiss : m.cache.get? k = none)
    (hf : m.fn args = Except.error e) :
    (m.call args).result = Except.error e ∧
    (m.call args).state = m ∧
    (m.call args).invoked = true ∧
    ((m.call args).state.call args).invoked = true := by
  have h := call_miss_err m args e (by rw [hk]; exact hmiss) hf
  simp [h]

/-- Witness for C4: a function that always throws, called twice with
the same argument, throws both times and invokes the function both
times, leaving the cache empty. -/
theorem memoize_error_passthrough_not_cached_witness :
    ((⟨fThrow, none, Cache.empty⟩ : MemoizedFunction).call [JSVal.num 1]).result =
        Except.error (JSVal.str "boom") ∧
    ((⟨fThrow, none, Cache.empty⟩ : MemoizedFunction).call [JSVal.num 1]).state =
        ⟨fThrow, none, Cache.empty⟩ ∧
    ((⟨fThrow, none, Cache.empty⟩ : MemoizedFunction).call [JSVal.num 1]).invoked = true ∧
    (((⟨fThrow, none, Cache.empty⟩ : MemoizedFunction).call [JSVal.num 1]).state.call
        [JSVal.num 1]).invoked = true :=
  memoize_error_passthrough_not_cached ⟨fThrow, none, Cache.empty⟩ [JSVal.num 1]
    (JSVal.num 1) (JSVal.str "boom") rfl rfl rfl

/-- Claim C5: the cache key is `resolver(a0,...,an)` when a resolver
was supplied, and the first argument `a0` alone otherwise; in the
default case all arguments after the first are ignored for cache-key
purposes, so two calls agreeing on `a0` but differing in later
arguments share one cache entry. -/
theorem memoize_key_is_resolver_or_first_arg
    (r : List JSVal → JSVal) (args : List JSVal) (a : JSVal)
    (rest1 rest2 : List JSVal)
    (f : List JSVal → Except JSVal JSVal) (v : JSVal)
    (hf : f (a :: rest1) = Except.ok v) :
    resolveKey (some r) args = r args ∧
    resolveKey none (a :: rest1) = a ∧
    (((⟨f, none, Cache.empty⟩ : MemoizedFunction).call (a :: rest1)).state.call
        (a :: rest2)).result = Except.ok v ∧
    (((⟨f, none, Cache.empty⟩ : MemoizedFunction).call (a :: rest1)).state.call
        (a :: rest2)).invoked = false := by
  refine ⟨rfl, rfl, ?_, ?_⟩ <;>
    simp [MemoizedFunction.call, resolveKey, Cache.empty, Cache.get?, Cache.set, hf]

/-- Witness for C5: doubling keyed by first argument `2`; a second call
with an extra trailing argument is served from the same cache entry. -/
theorem memoize_key_is_resolver_or_first_arg_witness :
    resolveKey (some (fun args => args.headD JSVal.undefined)) [JSVal.num 5] =
      (fun args => args.headD JSVal.undefined) [JSVal.num 5] ∧
    resolveKey none (JSVal.num 2 :: []) = JSVal.num 2 ∧
    (((⟨fDouble, none, Cache.empty⟩ : MemoizedFunction).call (JSVal.num 2 :: [])).state.call
        (JSVal.num 2 :: [JSVal.num 99])).result = Except.ok (JSVal.num 4) ∧
    (((⟨fDouble, none, Cache.empty⟩ : MemoizedFunction).call (JSVal.num 2 :: [])).state.call
        (JSVal.num 2 :: [JSVal.num 99])).invoked = false :=
  memoize_key_is_resolver_or_first_arg (fun args => args.headD JSVal.undefined)
    [JSVal.num 5] (JSVal.num 2) [] [JSVal.num 99] fDouble (JSVal.num 4) rfl

/-- Claim C6: calls resolving to two distinct uncached keys `k1` and
`k2` create two independent cache entries; deleting one entry via
`m.cache.delete(k1)` leaves the entry for `k2` (presence and stored
value) unchanged, and a subsequent call keyed `k2` is still served from
cache without invoking `fn`. -/
theorem memoize_distinct_keys_independent
    (m : MemoizedFunction) (args1 args2 : List JSVal) (k1 k2 v1 v2 : JSVal)
    (hk1 : resolveKey m.resolver args1 = k1)
    (hk2 : resolveKey m.resolver args2 = k2)
    (hne : k1 ≠ k2)
    (hm1 : m.cache.get? k1 = none)
    (hm2 : m.cache.get? k2 = none)
    (hf1 : m.fn args1 = Except.ok v1)
    (hf2 : m.fn args2 = Except.ok v2) :
    ((m.call args1).state.call args2).state.cache.get? k1 = some v1 ∧
    ((m.call args1).state.call args2).state.cache.get? k2 = some v2 ∧
    ((((m.call args1).state.call args2).state.cacheDelete k1)).cache.get? k1 = none ∧
    ((((m.call args1).state.call args2).state.cacheDelete k1)).cache.get? k2 = some v2 ∧
    (((((m.call args1).state.call args2).state.cacheDelete k1)).call args2).result =
      Except.ok v2 ∧
    (((((m.call args1).state.call args2).state.cacheDelete k1)).call args2).invoked =
      false := by
  subst hk1
  subst hk2
  have h1 := call_miss_ok m args1 v1 hm1 hf1
  have hc2 : (m.cache.set (resolveKey m.resolver args1) v1).get?
      (resolveKey m.resolver args2) = none := by
    rw [Cache.get_set_other m.cache (resolveKey m.resolver args1)
      (resolveKey m.resolver args2) v1 hne]
    exact hm2
  have h2 := call_miss_ok
    { m with cache := m.cache.set (resolveKey m.resolver args1) v1 } args2 v2
    (by simpa using hc2) (by simpa using hf2)
  rw [h1, h2]
  dsimp only
  have hg2 : ((m.cache.set (resolveKey m.resolver args1) v1).set
      (resolveKey m.resolver args2) v2).get? (resolveKey m.resolver args2) = some v2 :=
    Cache.get_set_self _ _ _
  have hg1 : ((m.cache.set (resolveKey m.resolver args1) v1).set
      (resolveKey m.resolver args2) v2).get? (resolveKey m.resolver args1) = some v1 := by
    rw [Cache.get_set_other _ (resolveKey m.resolver args2)
      (resolveKey m.resolver args1) v2 (Ne.symm hne)]
    exact Cache.get_set_self _ _ _
  have hd1 := Cache.get_delete_self
    ((m.cache.set (resolveKey m.resolver args1) v1).set (resolveKey m.resolver args2) v2)
    (resolveKey m.resolver args1)
  have hd2 : (((m.cache.set (resolveKey m.resolver args1) v1).set
      (resolveKey m.resolver args2) v2).delete (resolveKey m.resolver args1)).get?
      (resolveKey m.resolver args2) = some v2 := by
    rw [Cache.get_delete_other _ (resolveKey m.resolver args1)
      (resolveKey m.resolver args2) hne]
    exact hg2
  have h3 := call_hit
    { m with cache := ((m.cache.set (resolveKey m.resolver args1) v1).set
        (resolveKey m.resolver args2) v2).delete (resolveKey m.resolver args1) }
    args2 v2 (by simpa using hd2)
  refine ⟨hg1, hg2, ?_, ?_, ?_, ?_⟩
  · simpa [MemoizedFunction.cacheDelete] using hd1
  · simpa [MemoizedFunction.cacheDelete] using hd2
  · simp [MemoizedFunction.cacheDelete, h3]
  · simp [MemoizedFunction.cacheDelete, h3]

/-- Witness for C6 at the spec's instance: keys `2` and `3` with the
doubling function; deleting key `2` leaves key `3` cached. -/
theorem memoize_distinct_keys_independent_witness :
    (((⟨fDouble, none, Cache.empty⟩ : MemoizedFunction).call [JSVal.num 2]).state.call
        [JSVal.num 3]).state.cache.get? (JSVal.num 2) = some (JSVal.num 4) ∧
    (((⟨fDouble, none, Cache.empty⟩ : MemoizedFunction).call [JSVal.num 2]).state.call
        [JSVal.num 3]).state.cache.get? (JSVal.num 3) = some (JSVal.num 6) ∧
    ((((⟨fDouble, none, Cache.empty⟩ : MemoizedFunction).call [JSVal.num 2]).state.call
        [JSVal.num 3]).state.cacheDelete (JSVal.num 2)).cache.get? (JSVal.num 2) = none ∧
    ((((⟨fDouble, none, Cache.empty⟩ : MemoizedFunction).call [JSVal.num 2]).state.call
        [JSVal.num 3]).state.cacheDelete (JSVal.num 2)).cache.get? (JSVal.num 3) =
      some (JSVal.num 6) ∧
    (((((⟨fDouble, none, Cache.empty⟩ : MemoizedFunction).call [JSVal.num 2]).state.call
        [JSVal.num 3]).state.cacheDelete (JSVal.num 2)).call [JSVal.num 3]).result =
      Except.ok (JSVal.num 6) ∧
    (((((⟨fDouble, none, Cache.empty⟩ : MemoizedFunction).call [JSVal.num 2]).state.call
        [JSVal.num 3]).state.cacheDelete (JSVal.num 2)).call [JSVal.num 3]).invoked =
      false :=
  memoize_distinct_keys_independent ⟨fDouble, none, Cache.empty⟩ [JSVal.num 2]
    [JSVal.num 3] (JSVal.num 2) (JSVal.num 3) (JSVal.num 4) (JSVal.num 6)
    rfl rfl (by decide) rfl rfl rfl rfl

/-- Number of invocations of the underlying `fn` across a sequence of
calls to the memoized wrapper. -/
def countInvocations (m : MemoizedFunction) : List (List JSVal) → Nat
  | [] => 0
  | args :: rest =>
      (if (m.call args).invoked then 1 else 0) +
        countInvocations (m.call args).state rest

theorem countInvocations_cached (m : MemoizedFunction) (args : List JSVal) (v : JSVal)
    (n : Nat) (h : m.cache.get? (resolveKey m.resolver args) = some v) :
    countInvocations m (List.replicate n args) = 0 := by
  induction n with
  | zero => rfl
  | succ n ih =>
    have hc := call_hit m args v h
    simp [List.replicate, countInvocations, hc, ih]

/-- Claim C7: calling a memoized function with no arguments resolves
the default cache key to `undefined`, and repeated no-argument calls
hit the same single cache entry, invoking `fn` at most once across
them. -/
theorem memoize_no_args_single_entry
    (f : List JSVal → Except JSVal JSVal) (v : JSVal) (n : Nat)
    (hf : f [] = Except.ok v) :
    resolveKey none ([] : List JSVal) = JSVal.undefined ∧
    countInvocations ⟨f, none, Cache.empty⟩ (List.replicate n []) ≤ 1 := by
  refine ⟨rfl, ?_⟩
  cases n with
  | zero => simp [countInvocations]
  | succ n =>
    have h1 : (⟨f, none, Cache.empty⟩ : MemoizedFunction).call [] =
        ⟨Except.ok v, ⟨f, none, Cache.empty.set JSVal.undefined v⟩, true⟩ := by
      have := call_miss_ok ⟨f, none, Cache.empty⟩ [] v (by rfl) hf
      simpa [resolveKey] using this
    have h0 : countInvocations ⟨f, none, Cache.empty.set JSVal.undefined v⟩
        (List.replicate n []) = 0 := by
      apply countInvocations_cached _ _ v
      simp [resolveKey, Cache.empty, Cache.get?, Cache.set]
    simp [List.replicate, countInvocations, h1, h0]

/-- Witness for C7: a constant function called three times with no
arguments invokes the underlying function at most once. -/
theorem memoize_no_args_single_entry_witness :
    resolveKey none ([] : List JSVal) = JSVal.undefined ∧
    countInvocations ⟨fun _ => Except.ok (JSVal.num 7), none, Cache.empty⟩
      (List.replicate 3 []) ≤ 1 :=
  memoize_no_args_single_entry (fun _ => Except.ok (JSVal.num 7)) (JSVal.num 7) 3 rfl

theorem Cache.has_set (c : Cache) (k k' v : JSVal) (h : c.has k = true) :
    (c.set k' v).has k = true := by
  by_cases hkk : k' = k
  · subst hkk; simp [Cache.has, Cache.get_set_self]
  · simpa [Cache.has, Cache.get_set_other c k' k v hkk] using h

theorem call_preserves_has (m : MemoizedFunction) (args : List JSVal) (k : JSVal)
    (h : m.cache.has k = true) : (m.call args).state.cache.has k = true := by
  unfold MemoizedFunction.call
  cases hc : m.cache.get? (resolveKey m.resolver args) with
  | some v => simpa [hc] using h
  | none =>
    cases hf : m.fn args with
    | ok v =>
      simp only [hc, hf]
      exact Cache.has_set m.cache k (resolveKey m.resolver args) v h
    | error e => simpa [hc, hf] using h

theorem runCalls_preserves_has (m : MemoizedFunction) (calls : List (List JSVal))
    (k : JSVal) (h : m.cache.has k = true) :
    (runCalls m calls).cache.has k = true := by
  induction calls generalizing m with
  | nil => simpa [runCalls] using h
  | cons a as ih =>
    have : runCalls m (a :: as) = runCalls (m.call a).state as := by
      simp [runCalls]
    rw [this]
    exact ih _ (call_preserves_has m a k h)

theorem call_establishes_key (m : MemoizedFunction) (args : List JSVal)
    (hok : ∃ v, m.fn args = Except.ok v) :
    (m.call args).state.cache.has (resolveKey m.resolver args) = true := by
  unfold MemoizedFunction.call
  cases hc : m.cache.get? (resolveKey m.resolver args) with
  | some v => simp [hc, Cache.has]
  | none =>
    obtain ⟨v, hf⟩ := hok
    simp [hc, hf, Cache.has, Cache.get_set_self]

/-- Claim C8: the cache never evicts entries on its own — every entry
present before a sequence of calls is still present after it, and after
a sequence of calls whose underlying invocations succeed, the cache
contains an entry for every resolved key of the sequence (unbounded
growth; entries are removed only by explicit external delete/clear). -/
theorem memoize_cache_never_evicts
    (m : MemoizedFunction) (calls : List (List JSVal))
    (hok : ∀ args ∈ calls, ∃ v, m.fn args = Except.ok v) :
    (∀ k, m.cache.has k = true → (runCalls m calls).cache.has k = true) ∧
    (∀ args ∈ calls,
      (runCalls m calls).cache.has (resolveKey m.resolver args) = true) := by
  constructor
  · intro k hk
    exact runCalls_preserves_has m calls k hk
  · induction calls generalizing m with
    | nil => intro args h; cases h
    | cons a as ih =>
      intro args h
      have hstep : runCalls m (a :: as) = runCalls (m.call a).state as := by
        simp [runCalls]
      rcases List.mem_cons.mp h with rfl | h
      · rw [hstep]
        exact runCalls_preserves_has _ as _
          (call_establishes_key m args (hok args (List.mem_cons_self args as)))
      · rw [hstep]
        have hres : (m.call a).state.resolver = m.resolver := call_state_resolver m a
        have hfn : (m.call a).state.fn = m.fn := call_state_fn m a
        have := ih (m.call a).state
          (by intro args2 h2; rw [hfn]; exact hok args2 (List.mem_cons_of_mem a h2))
          args h
        rwa [hres] at this

/-- Witness for C8: two successful calls with distinct keys leave both
keys present in the cache. -/
theorem memoize_cache_never_evicts_witness :
    (∀ k, (⟨fDouble, none, Cache.empty⟩ : MemoizedFunction).cache.has k = true →
      (runCalls ⟨fDouble, none, Cache.empty⟩ [[JSVal.num 1], [JSVal.num 2]]).cache.has k =
        true) ∧
    (∀ args ∈ [[JSVal.num 1], [JSVal.num 2]],
      (runCalls ⟨fDouble, none, Cache.empty⟩ [[JSVal.num 1], [JSVal.num 2]]).cache.has
        (resolveKey (none : Option (List JSVal → JSVal)) args) = true) :=
  memoize_cache_never_evicts ⟨fDouble, none, Cache.empty⟩ [[JSVal.num 1], [JSVal.num 2]]
    (by
      intro args h
      simp only [List.mem_cons, List.mem_singleton, List.not_mem_nil, or_false] at h
      rcases h with rfl | rfl
      · exact ⟨JSVal.num 2, rfl⟩
      · exact ⟨JSVal.num 4, rfl⟩)

/-- A heap of cache stores, indexed by allocation id, used to state
cache-ownership and isolation between distinct memoized wrappers. -/
structure World where
  nextId : Nat
  caches : Nat → Cache

/-- The initial heap with no allocated caches. -/
def World.init : World := ⟨0, fun _ => Cache.empty⟩

/-- A memoized wrapper together with the id of the cache it owns. -/
structure MemoRef where
  fn : List JSVal → Except JSVal JSVal
  resolver : Option (List JSVal → JSVal)
  cacheId : Nat

/-- Overwrite the cache stored under `id`. -/
def World.setCache (w : World) (id : Nat) (c : Cache) : World :=
  { w with caches := fun i => if i = id then c else w.caches i }

/-- Modelled from the spec: each call to `memoize` creates a fresh
empty cache owned by the returned wrapper alone (allocated at a fresh
id). -/
def World.memoizeIn (w : World) (f : List JSVal → Except JSVal JSVal)
    (r : Option (List JSVal → JSVal)) : MemoRef × World :=
  (⟨f, r, w.nextId⟩,
   ⟨w.nextId + 1, fun i => if i = w.nextId then Cache.empty else w.caches i⟩)

/-- Outcome of invoking a wrapper against the heap. -/
structure WorldCallOutcome where
  result : Except JSVal JSVal
  world : World
  invoked : Bool

/-- Invoke the wrapper `m` in heap `w`: the call reads and writes only
the cache stored under `m.cacheId`, with the same per-call semantics as
`MemoizedFunction.call`. -/
def MemoRef.callIn (m : MemoRef) (w : World) (args : List JSVal) : WorldCallOutcome :=
  let o := (MemoizedFunction.mk m.fn m.resolver (w.caches m.cacheId)).call args
  ⟨o.result, w.setCache m.cacheId o.state.cache, o.invoked⟩

/-- External `m.cache.set(k, v)` against the heap. -/
def MemoRef.cacheSetIn (m : MemoRef) (w : World) (k v : JSVal) : World :=
  w.setCache m.cacheId ((w.caches m.cacheId).set k v)

/-- External `m.cache.delete(k)` against the heap. -/
def MemoRef.cacheDeleteIn (m : MemoRef) (w : World) (k : JSVal) : World :=
  w.setCache m.cacheId ((w.caches m.cacheId).delete k)

/-- External `m.cache.clear()` against the heap. -/
def MemoRef.cacheClearIn (m : MemoRef) (w : World) : World :=
  w.setCache m.cacheId ((w.caches m.cacheId).clear)

/-- Claim C9: each call to `memoize` creates a fresh cache owned by
that wrapper alone — two successive allocations yield distinct cache
ids, each starting empty, and calling or mutating one wrapper (call,
`cache.set`, `cache.delete`, `cache.clear`) never changes the other
wrapper's cache or the results it returns. -/
theorem memoize_fresh_cache_isolation
    (w : World) (f1 f2 : List JSVal → Except JSVal JSVal)
    (r1 r2 : Option (List JSVal → JSVal)) (args args2 : List JSVal) (k v : JSVal) :
    ((w.memoizeIn f1 r1).1.cacheId ≠
        (((w.memoizeIn f1 r1).2).memoizeIn f2 r2).1.cacheId) ∧
    ((((w.memoizeIn f1 r1).2).memoizeIn f2 r2).2.caches
        (w.memoizeIn f1 r1).1.cacheId = Cache.empty) ∧
    ((((w.memoizeIn f1 r1).2).memoizeIn f2 r2).2.caches
        (((w.memoizeIn f1 r1).2).memoizeIn f2 r2).1.cacheId = Cache.empty) ∧
    (∀ (mA mB : MemoRef) (w' : World), mA.cacheId ≠ mB.cacheId →
      ((mA.callIn w' args).world.caches mB.cacheId = w'.caches mB.cacheId) ∧
      ((mA.cacheSetIn w' k v).caches mB.cacheId = w'.caches mB.cacheId) ∧
      ((mA.cacheDeleteIn w' k).caches mB.cacheId = w'.caches mB.cacheId) ∧
      ((mA.cacheClearIn w').caches mB.cacheId = w'.caches mB.cacheId) ∧
      ((mB.callIn (mA.callIn w' args).world args2).result =
        (mB.callIn w' args2).result) ∧
      ((mB.callIn (mA.cacheSetIn w' k v) args2).result =
        (mB.callIn w' args2).result)) := by
  refine ⟨?_, ?_, ?_, ?_⟩
  · simp [World.memoizeIn]
  · simp [World.memoizeIn]
  · simp [World.memoizeIn]
  · intro mA mB w' hne
    have hframe : ∀ c : Cache,
        (w'.setCache mA.cacheId c).caches mB.cacheId = w'.caches mB.cacheId := by
      intro c
      simp [World.setCache, Ne.symm hne]
    refine ⟨hframe _, hframe _, hframe _, hframe _, ?_, ?_⟩
    · simp [MemoRef.callIn, hframe]
    · simp [MemoRef.callIn, MemoRef.cacheSetIn, hframe]

/-- Witness for C9: two wrappers allocated in succession from the
initial heap have distinct, initially empty caches, and mutations
through the first do not touch the second. -/
theorem memoize_fresh_cache_isolation_witness :
    ((World.init.memoizeIn fDouble none).1.cacheId ≠
        (((World.init.memoizeIn fDouble none).2).memoizeIn fThrow none).1.cacheId) ∧
    ((((World.init.memoizeIn fDouble none).2).memoizeIn fThrow none).2.caches
        (World.init.memoizeIn fDouble none).1.cacheId = Cache.empty) ∧
    ((((World.init.memoizeIn fDouble none).2).memoizeIn fThrow none).2.caches
        (((World.init.memoizeIn fDouble none).2).memoizeIn fThrow none).1.cacheId =
      Cache.empty) ∧
    (∀ (mA mB : MemoRef) (w' : World), mA.cacheId ≠ mB.cacheId →
      ((mA.callIn w' [JSVal.num 2]).world.caches mB.cacheId = w'.caches mB.cacheId) ∧
      ((mA.cacheSetIn w' (JSVal.num 3) (JSVal.num 9)).caches mB.cacheId =
        w'.caches mB.cacheId) ∧
      ((mA.cacheDeleteIn w' (JSVal.num 3)).caches mB.cacheId = w'.caches mB.cacheId) ∧
      ((mA.cacheClearIn w').caches mB.cacheId = w'.caches mB.cacheId) ∧
      ((mB.callIn (mA.callIn w' [JSVal.num 2]).world [JSVal.num 5]).result =
        (mB.callIn w' [JSVal.num 5]).result) ∧
      ((mB.callIn (mA.cacheSetIn w' (JSVal.num 3) (JSVal.num 9)) [JSVal.num 5]).result =
        (mB.callIn w' [JSVal.num 5]).result)) :=
  memoize_fresh_cache_isolation World.init fDouble fThrow none none
    [JSVal.num 2] [JSVal.num 5] (JSVal.num 3) (JSVal.num 9)

/-- A model of a `Buffer` binding on the root object: its `isBuffer`
member is `some f` exactly when the member exists and is a function. -/
structure BufferModule where
  isBuffer : Option (JSVal → Bool)

/-- The root environment (`root.js`): it may or may not provide a
global `Buffer` binding. -/
structure RootEnv where
  «Buffer» : Option BufferModule

/-- From `src/isBuffer.js`: `const nativeIsBuffer = Buffer && typeof
Buffer.isBuffer === 'function' ? Buffer.isBuffer : undefined`. -/
def nativeIsBuffer (root : RootEnv) : Option (JSVal → Bool) :=
  match root.Buffer with
  | none => none
  | some b => b.isBuffer

/-- From `src/isBuffer.js`: `const isBuffer = nativeIsBuffer ||
(() => false)`. -/
def isBuffer (root : RootEnv) (value : JSVal) : Bool :=
  match nativeIsBuffer root with
  | some f => f value
  | none => false

/-- Claim C10: `isBuffer` is total and boolean-valued for every input,
and in an environment whose root provides no `Buffer` with a callable
`Buffer.isBuffer`, it returns `false` for every value (including typed
arrays such as `Uint8Array`); it never throws. -/
theorem isBuffer_false_without_native (root : RootEnv) (v : JSVal)
    (h : nativeIsBuffer root = none) :
    isBuffer root v = false ∧ (isBuffer root v = true ∨ isBuffer root v = false) := by
  refine ⟨?_, ?_⟩
  · simp [isBuffer, h]
  · rcases Bool.dichotomy (isBuffer root v) with hb | hb
    · exact Or.inr hb
    · exact Or.inl hb

/-- Witness for C10: in a root environment with no `Buffer`, a typed
array-like object value is classified as not a buffer. -/
theorem isBuffer_false_without_native_witness :
    isBuffer ⟨none⟩ (JSVal.obj 0) = false ∧
    (isBuffer ⟨none⟩ (JSVal.obj 0) = true ∨ isBuffer ⟨none⟩ (JSVal.obj 0) = false) :=
  isBuffer_false_without_native ⟨none⟩ (JSVal.obj 0) rfl
